import Mathlib

/-!
Verification of the DTCA application backend (`src/server.js`).

The JavaScript source is shallowly embedded: every function of the server
that the verified claims depend on is translated into an executable Lean
definition.  Strings are modelled by Lean `String` (a structure over
`List Char`); JavaScript's loose falsiness for strings is modelled by the
empty string (a field that is `undefined` in JS behaves, everywhere the
server reads it, exactly like `""`, since the server only tests truthiness
and concatenates present values).  Remote I/O (`fetch`) is modelled by
oracle values supplied to the handlers: an `Except String α` is `.error e`
when the underlying promise rejects and `.ok v` when it resolves, and every
handler additionally returns the list of remote API calls it issued.
-/

namespace DTCA

/-! ## String primitives (JS semantics) -/

/-- ASCII whitespace recognised by JavaScript's `String.prototype.trim`.
(The embedding restricts attention to ASCII data.) -/
def jsWhitespaceChar (c : Char) : Bool :=
  c = ' ' || c = '\t' || c = '\n' || c = '\r' || c = '\x0b' || c = '\x0c'

/-- `String.prototype.trim`: drop leading and trailing whitespace. -/
def jsTrimList (l : List Char) : List Char :=
  ((l.dropWhile jsWhitespaceChar).reverse.dropWhile jsWhitespaceChar).reverse

def jsTrim (s : String) : String := ⟨jsTrimList s.data⟩

/-- `String.prototype.toLowerCase` on ASCII data. -/
def jsToLower (s : String) : String := ⟨s.data.map Char.toLower⟩

/-- `beginsWith l p` holds when `p` is a prefix of `l` (JS `startsWith`). -/
def beginsWith : List Char → List Char → Bool
  | _, [] => true
  | [], _ :: _ => false
  | a :: as, b :: bs => a == b && beginsWith as bs

/-- `String.prototype.includes` on char lists: `needle` occurs contiguously
inside `hay` (the empty needle is always included, as in JS). -/
def jsIncludesL (hay needle : List Char) : Bool :=
  match hay with
  | [] => beginsWith [] needle
  | _ :: t => beginsWith hay needle || jsIncludesL t needle

def jsIncludes (hay needle : String) : Bool := jsIncludesL hay.data needle.data

/-- One step of `.replace(/&amp;/g, 'and')`: every occurrence of the literal
token `&amp;` becomes `and`. -/
def replaceAmp : List Char → List Char
  | '&' :: 'a' :: 'm' :: 'p' :: ';' :: rest => 'a' :: 'n' :: 'd' :: replaceAmp rest
  | c :: rest => c :: replaceAmp rest
  | [] => []

/-- Character class `[a-z0-9]` of the normalisation regex. -/
def isLowerAlnum (c : Char) : Bool :=
  ('a' ≤ c && c ≤ 'z') || ('0' ≤ c && c ≤ '9')

/-- Worker for `collapseRuns`: `inRun` records whether the previous character
belonged to a non-alphanumeric run (whose single replacement space was
already emitted). -/
def collapseAux : Bool → List Char → List Char
  | _, [] => []
  | inRun, c :: rest =>
    if isLowerAlnum c then c :: collapseAux false rest
    else if inRun then collapseAux true rest
    else ' ' :: collapseAux true rest

/-- `.replace(/[^a-z0-9]+/g, ' ')`: collapse every maximal run of
non-alphanumeric characters to a single space. -/
def collapseRuns (l : List Char) : List Char := collapseAux false l

/-- The `norm` helper of `optionIdFor` in `server.js`:
lowercase, expand `&amp;` to `and`, collapse non-alphanumeric runs to single
spaces, trim. -/
def norm (s : String) : String :=
  ⟨jsTrimList (collapseRuns (replaceAmp (s.data.map Char.toLower)))⟩

/-! ## Data model: cached dropdown options -/

/-- One selectable value of a remote enumerated field (`{id, name}`). -/
structure FieldOption where
  id : String
  name : String
deriving DecidableEq

/-- `OPTION_CACHE`: field id → cached option list (a JS `Map`, modelled as an
association list with unique keys; `Map.get` is the first-match lookup). -/
abbrev OptionCache := List (String × List FieldOption)

/-- `Map.prototype.set`: bind `k` to `v`, replacing any previous binding.
(Insertion order of the JS map is irrelevant to the server's behaviour.) -/
def mapSet (m : OptionCache) (k : String) (v : List FieldOption) : OptionCache :=
  (k, v) :: m.filter (fun p => p.1 ≠ k)

/-! ## Option Resolver (`optionIdFor`) -/

/-- Exact normalized match (`opts.find(o => norm(o.name) === u)`). -/
def exactStep (u : String) (opts : List FieldOption) : Option String :=
  (opts.find? (fun o => norm o.name == u)).map FieldOption.id

/-- Substring match in either direction
(`u.includes(on) || on.includes(u)`). -/
def containsStep (u : String) (opts : List FieldOption) : Option String :=
  (opts.find? (fun o => jsIncludes u (norm o.name) || jsIncludes (norm o.name) u)).map
    FieldOption.id

/-- Yes shorthand (`u === 'yes' || u === 'y'` → option literally named yes). -/
def yesStep (u : String) (opts : List FieldOption) : Option String :=
  if u = "yes" || u = "y" then
    (opts.find? (fun o => norm o.name == "yes")).map FieldOption.id
  else none

/-- No shorthand (`u === 'no' || u === 'n'` → option literally named no). -/
def noStep (u : String) (opts : List FieldOption) : Option String :=
  if u = "no" || u = "n" then
    (opts.find? (fun o => norm o.name == "no")).map FieldOption.id
  else none

/-- The finite language of the work-eligibility regex
`(i am )?(a )?(us|u s|u\.s\.) (citizen|permanent resident)` (the part after
the `(^| )` anchor): all 24 literal alternatives. -/
def usRegexAlts : List String :=
  (["", "i am "].flatMap fun a =>
    (["", "a "].flatMap fun b =>
      (["us", "u s", "u.s."].flatMap fun c =>
        (["citizen", "permanent resident"].map fun d => a ++ b ++ c ++ " " ++ d))))

/-- The test
`/(^| )(i am )?(a )?(us|u s|u\.s\.) (citizen|permanent resident)/.test(u)`:
some alternative occurs in `u` at position 0 or right after a space, which is
equivalent to `" " ++ alt` occurring in `" " ++ u`. -/
def usRegexTest (u : String) : Bool :=
  usRegexAlts.any fun s => jsIncludesL (' ' :: u.data) (' ' :: s.data)

/-- US-citizen/permanent-resident branch of the work-eligibility heuristic. -/
def usStep (u : String) (opts : List FieldOption) : Option String :=
  if usRegexTest u || (jsIncludes u "us" && jsIncludes u "permanent resident") then
    (opts.find? (fun o =>
      jsIncludes (norm o.name) "us" &&
        (jsIncludes (norm o.name) "citizen" ||
          jsIncludes (norm o.name) "permanent resident"))).map FieldOption.id
  else none

/-- Canadian branch of the work-eligibility heuristic. -/
def canadaStep (u : String) (opts : List FieldOption) : Option String :=
  if jsIncludes u "canada" || jsIncludes u "canadian" then
    (opts.find? (fun o =>
      jsIncludes (norm o.name) "canada" || jsIncludes (norm o.name) "canadian")).map
      FieldOption.id
  else none

/-- Not-eligible branch of the work-eligibility heuristic. -/
def notEligibleStep (u : String) (opts : List FieldOption) : Option String :=
  if jsIncludes u "none" || jsIncludes u "not eligible" then
    (opts.find? (fun o =>
      jsIncludes (norm o.name) "not eligible" || jsIncludes (norm o.name) "none")).map
      FieldOption.id
  else none

/-- The field-specific work-eligibility cascade (three sequential `if`s, each
returning when its `find` succeeds). -/
def workEligSteps (u : String) (opts : List FieldOption) : Option String :=
  match usStep u opts with
  | some r => some r
  | none =>
    match canadaStep u opts with
    | some r => some r
    | none => notEligibleStep u opts

/-- Body of `optionIdFor` after the falsiness guard: `u` is the normalized
raw text, `opts` the cached options, `weId` the configured
`CF.WORK_ELIGIBILITY` field id. -/
def optionIdForCore (weId fieldId u : String) (opts : List FieldOption) : Option String :=
  if opts.isEmpty then none
  else
    match exactStep u opts with
    | some r => some r
    | none =>
      match containsStep u opts with
      | some r => some r
      | none =>
        match yesStep u opts with
        | some r => some r
        | none =>
          match noStep u opts with
          | some r => some r
          | none => if fieldId = weId then workEligSteps u opts else none

/-- `optionIdFor(fieldId, raw)` of `server.js`.  `if (!fieldId || !raw) return
null` is the JS falsiness guard (empty string ≡ absent); the cache miss
defaults to `[]` (`OPTION_CACHE.get(fieldId) || []`). -/
def optionIdFor (weId : String) (cache : OptionCache) (fieldId raw : String) :
    Option String :=
  if fieldId = "" || raw = "" then none
  else optionIdForCore weId fieldId (norm raw) ((cache.lookup fieldId).getD [])

/-! ## `pushDropdownOrText` -/

/-- One entry of the `custom_fields` array (`{id, value}`; the value is either
a resolved option id or raw text — both plain strings, as in JS). -/
structure FieldAssignment where
  id : String
  value : String
deriving DecidableEq

/-- JS truthiness of an optional string (`undefined`/`null`/`''` are falsy). -/
def strTruthy : Option String → Bool
  | none => false
  | some s => s != ""

/-- `pushDropdownOrText(custom_fields, fieldId, raw)` of `server.js`, in
functional form: returns the extended assignment list.  The push is guarded
by `if (id)` — JS string truthiness — so a resolved option id that is the
empty string falls through to the skip/fallback branches exactly like
`null`. -/
def pushDropdownOrText (weId : String) (cache : OptionCache)
    (custom_fields : List FieldAssignment) (fieldId raw : String) :
    List FieldAssignment :=
  if fieldId = "" || raw = "" then custom_fields
  else
    let hasOptions := (cache.lookup fieldId).isSome
    let id := optionIdFor weId cache fieldId raw
    if strTruthy id then custom_fields ++ [⟨fieldId, id.getD ""⟩]
    else if !hasOptions then custom_fields ++ [⟨fieldId, raw⟩]
    else custom_fields

/-! ## Option cache refresh (`warmDropdowns`) -/

/-- One custom-field definition returned by the list-fields fetch:
`options` is `some l` exactly when `Array.isArray(f.type_config?.options)`
(so an enumerated field; an empty array still counts). -/
structure FieldDef where
  id : String
  options : Option (List FieldOption)
deriving DecidableEq

/-- Loop body of `warmDropdowns`: cache fields that expose an option array. -/
def warmStep (m : OptionCache) (f : FieldDef) : OptionCache :=
  match f.options with
  | some opts => mapSet m f.id opts
  | none => m

/-- `warmDropdowns()` of `server.js`: the cache is cleared first
(`OPTION_CACHE.clear()`), so the previous contents `old` never influence the
result; a rejected fetch / JSON parse (`.error`) is caught and logged,
leaving the cache empty.  `fields` is `json?.fields || []`. -/
def warmDropdowns (_old : OptionCache) (r : Except String (List FieldDef)) :
    OptionCache :=
  match r with
  | .error _ => []
  | .ok fields => fields.foldl warmStep []

/-! ## Cohort resolution -/

/-- Normalisation applied by `resolveCohortOptionId`:
`String(input).trim().toLowerCase()`. -/
def cohortNorm (input : String) : String := jsToLower (jsTrim input)

/-- Body of `resolveCohortOptionId` on the normalised label `v`.
`octId`/`janId` are `COHORT_OPTIONS.october/january` (`none` when the
environment variable is unset, via `|| null`); note that the matching
branches return the configured slot value itself, even when it is `null`. -/
def resolveCohortCore (octId janId : Option String) (v : String) : Option String :=
  if v = "october" then octId
  else if v = "january" then janId
  else if jsIncludes v "dtca-2502" || jsIncludes v "oct" then octId
  else if jsIncludes v "dtca-2601" || jsIncludes v "jan" then janId
  else none

/-- `resolveCohortOptionId(input)` of `server.js`. -/
def resolveCohortOptionId (octId janId : Option String) (input : String) :
    Option String :=
  resolveCohortCore octId janId (cohortNorm input)

/-- JS `a || b` on optional strings. -/
def jsOrOpt (a b : Option String) : Option String :=
  if strTruthy a then a else b

/-- JS `x || null` on an optional string: collapse falsy to `none`. -/
def jsOrNull (o : Option String) : Option String :=
  if strTruthy o then o else none

/-- Body of a `/api/cohort` request. -/
structure CohortRequest where
  taskId : Option String
  customTaskId : Option String
  cohort : Option String
deriving DecidableEq

/-- Responses of the `/api/cohort` handler, by exit path. -/
inductive CohortResponse where
  /-- HTTP 400 with `{status:'error', message}`. -/
  | clientError (message : String)
  /-- HTTP 500: `CF_COHORT` not configured. -/
  | configError
  /-- HTTP 400: the remote field update was rejected. -/
  | updateFailed
  /-- HTTP 200 `{status:'ok', idUsed, usedCustom, cohort, optionId}`. -/
  | okResp (idUsed : String) (usedCustom : Bool) (cohort optionId : String)
  /-- HTTP 500 from the outer catch. -/
  | serverErr
deriving DecidableEq

/-- The `/api/cohort` handler.  `cfCohort` is `CF.COHORT` (`""` ≡ unset),
`useCustom` is `CLICKUP_CUSTOM_TASK_IDS === 'true'`, and `w` is the oracle
for the remote field-update call (`.error` = fetch threw, `.ok ok` = HTTP
response with `r.ok = ok`). -/
def cohortHandler (cfCohort : String) (octId janId : Option String)
    (useCustom : Bool) (w : Except String Bool) (req : CohortRequest) :
    CohortResponse :=
  if !strTruthy req.cohort then .clientError "cohort is required"
  else if cfCohort = "" then .configError
  else
    let cohort := req.cohort.getD ""
    match resolveCohortOptionId octId janId cohort with
    | none =>
        .clientError
          "Unknown cohort value; expected \"october\" or \"january\" (or DTCA-2502/DTCA-2601 label)."
    | some optionId =>
      let idToUse := if useCustom then jsOrOpt req.customTaskId req.taskId else req.taskId
      if !strTruthy idToUse then
        .clientError
          (if useCustom then
            "Missing customTaskId (or taskId fallback) while CLICKUP_CUSTOM_TASK_IDS=true"
          else "Missing taskId")
      else
        match w with
        | .error _ => .serverErr
        | .ok rok =>
          if !rok then .updateFailed
          else .okResp (idToUse.getD "") useCustom cohort optionId

/-! ## `/api/apply` flow -/

/-- The named string fields of a submission (`normalizePayload`): `""` models
an absent (`undefined`) field, which the server treats identically. -/
structure Payload where
  fullName : String
  email : String
  phone : String
  location : String
  otherLocation : String
  workEligibility : String
  reliableComputer : String
  backgroundCheck : String
  hasExperience : String
  experienceDescription : String
  certCompleted : String
  certificationsListed : String
  education : String
  otherEducation : String
  classSchedule : String
  commitmentLevel : String
  heardAbout : String
  engagementText : String
  additionalComments : String
deriving DecidableEq

/-- `normalizePayload(req)`: every present field is trimmed
(`b.x && String(b.x).trim()`; with `""` encoding absence, this is a trim of
every field). -/
def normalizePayload (b : Payload) : Payload where
  fullName := jsTrim b.fullName
  email := jsTrim b.email
  phone := jsTrim b.phone
  location := jsTrim b.location
  otherLocation := jsTrim b.otherLocation
  workEligibility := jsTrim b.workEligibility
  reliableComputer := jsTrim b.reliableComputer
  backgroundCheck := jsTrim b.backgroundCheck
  hasExperience := jsTrim b.hasExperience
  experienceDescription := jsTrim b.experienceDescription
  certCompleted := jsTrim b.certCompleted
  certificationsListed := jsTrim b.certificationsListed
  education := jsTrim b.education
  otherEducation := jsTrim b.otherEducation
  classSchedule := jsTrim b.classSchedule
  commitmentLevel := jsTrim b.commitmentLevel
  heardAbout := jsTrim b.heardAbout
  engagementText := jsTrim b.engagementText
  additionalComments := jsTrim b.additionalComments

/-- `buildTaskDescription(p)` of `server.js`: conditional markdown rows joined
with newlines. -/
def buildTaskDescription (p : Payload) : String :=
  let rows : List String :=
    (if p.email ≠ "" then ["- **Email:** " ++ p.email] else []) ++
    (if p.phone ≠ "" then ["- **Phone:** " ++ p.phone] else []) ++
    (if p.location ≠ "" then
      ["- **Location:** " ++ p.location ++
        (if p.otherLocation ≠ "" then " (" ++ p.otherLocation ++ ")" else "")]
    else []) ++
    (if p.workEligibility ≠ "" then ["- **Work eligibility:** " ++ p.workEligibility] else []) ++
    (if p.education ≠ "" then
      ["- **Education:** " ++ p.education ++
        (if p.otherEducation ≠ "" then " (" ++ p.otherEducation ++ ")" else "")]
    else []) ++
    (if p.heardAbout ≠ "" then ["- **Heard about us:** " ++ p.heardAbout] else []) ++
    (if p.classSchedule ≠ "" then ["- **Class availability:** " ++ p.classSchedule] else []) ++
    (if p.commitmentLevel ≠ "" then ["- **Commitment:** " ++ p.commitmentLevel] else []) ++
    (if p.hasExperience ≠ "" then ["- **Prior IT experience:** " ++ p.hasExperience] else []) ++
    (if p.experienceDescription ≠ "" then
      ["\n**Experience details**\n" ++ p.experienceDescription] else []) ++
    (if p.certCompleted ≠ "" then ["\n**Certifications status:** " ++ p.certCompleted] else []) ++
    (if p.certificationsListed ≠ "" then
      ["**Certifications listed:** " ++ p.certificationsListed] else []) ++
    (if p.engagementText ≠ "" then
      ["\n**Engagement requirement ack:** " ++ p.engagementText] else []) ++
    (if p.additionalComments ≠ "" then
      ["\n**Additional comments**\n" ++ p.additionalComments] else [])
  String.intercalate "\n" rows

/-- The custom-field-id configuration (`CF` of `server.js`); `""` models an
unset environment variable.  Only the entries the apply flow writes are
modelled (the experience/certification pushes are commented out in the
source, and `DCA_VIDEO`/`PAYMENT_METHOD` are unused by this flow). -/
structure CF where
  engagementReq : String
  additionalComments : String
  email : String
  phone : String
  location : String
  otherLocation : String
  workEligibility : String
  reliableComputer : String
  education : String
  otherEducation : String
  classSchedule : String
  commitmentLevel : String
  backgroundCheck : String
  heardAbout : String
  dcaVideoUrl : String
deriving DecidableEq

/-- The `custom_fields` construction of the `/api/apply` handler
(lines building `custom_fields` in `server.js`), as a pure function. -/
def buildCustomFields (cf : CF) (cache : OptionCache) (p : Payload) :
    List FieldAssignment :=
  let f : List FieldAssignment := []
  let f := if cf.email ≠ "" ∧ p.email ≠ "" then f ++ [⟨cf.email, p.email⟩] else f
  let f := if cf.phone ≠ "" ∧ p.phone ≠ "" then f ++ [⟨cf.phone, p.phone⟩] else f
  let f := if cf.location ≠ "" ∧ p.location ≠ "" then
      pushDropdownOrText cf.workEligibility cache f cf.location p.location
    else f
  let f := if cf.otherLocation ≠ "" ∧ p.otherLocation ≠ "" then
      f ++ [⟨cf.otherLocation, p.otherLocation⟩] else f
  let f := pushDropdownOrText cf.workEligibility cache f cf.workEligibility p.workEligibility
  let f := pushDropdownOrText cf.workEligibility cache f cf.reliableComputer p.reliableComputer
  let f := pushDropdownOrText cf.workEligibility cache f cf.backgroundCheck p.backgroundCheck
  let f := pushDropdownOrText cf.workEligibility cache f cf.education p.education
  let f := if cf.otherEducation ≠ "" ∧ p.otherEducation ≠ "" then
      f ++ [⟨cf.otherEducation, p.otherEducation⟩] else f
  let f := pushDropdownOrText cf.workEligibility cache f cf.classSchedule p.classSchedule
  let f := pushDropdownOrText cf.workEligibility cache f cf.commitmentLevel p.commitmentLevel
  let f := pushDropdownOrText cf.workEligibility cache f cf.heardAbout p.heardAbout
  let f := if cf.engagementReq ≠ "" ∧ p.engagementText ≠ "" then
      f ++ [⟨cf.engagementReq, p.engagementText⟩] else f
  let f := if cf.additionalComments ≠ "" ∧ p.additionalComments ≠ "" then
      f ++ [⟨cf.additionalComments, p.additionalComments⟩] else f
  f

/-- The JSON body sent to the task-creation endpoint. -/
structure TaskBody where
  name : String
  description : String
  custom_fields : List FieldAssignment
deriving DecidableEq

/-- The uploaded video file (`req.file`); only the properties the handler
reads are modelled. -/
structure VideoFile where
  bufferLen : Nat
  originalname : String
  mimetype : String
deriving DecidableEq

/-- A `/api/apply` request: optional multipart file plus form body. -/
structure ApplyRequest where
  file : Option VideoFile
  body : Payload
deriving DecidableEq

/-- `req.file && req.file.buffer && req.file.buffer.length` truthiness. -/
def fileTruthy : Option VideoFile → Bool
  | none => false
  | some f => f.bufferLen != 0

/-- Outbound calls to the remote task-tracking API, in issue order. -/
inductive RemoteCall where
  /-- `GET /list/:id/field` (the `warmDropdowns` fetch). -/
  | listFields (listId : String)
  /-- `POST /list/:id/task`. -/
  | createTask (listId : String) (body : TaskBody)
  /-- `POST /task/:id/attachment`. -/
  | uploadAttachment (taskId : String)
  /-- `POST /task/:id/field/:fieldId`. -/
  | setField (taskId fieldId value : String)
deriving DecidableEq

/-- The `upload` summary embedded in the success response
(`uploadMsg` in `server.js`; `null || 'ok'` collapses to `okMsg`). -/
inductive UploadMsg where
  /-- `'ok'`. -/
  | okMsg
  /-- `{step:'upload', status, body}` for a non-success HTTP status. -/
  | failed (status : Nat) (body : String)
  /-- `{step:'exception', err}` when the upload block threw. -/
  | exception (err : String)
deriving DecidableEq

/-- The parsed JSON of the task-creation response (the fields the handler
reads: `created?.id`, `created?.custom_id`, `created?.url`). -/
structure CreatedTask where
  id : Option String
  custom_id : Option String
  url : Option String
deriving DecidableEq

/-- The attachment-upload response as the handler consumes it: `ok`/`status`
from the HTTP response, `bodyText` the parsed body (`{}` on parse failure),
`attUrl` the collapsed `upJson?.url || upJson?.attachment?.url ||
upJson[0]?.url` extraction. -/
structure UploadResp where
  ok : Bool
  status : Nat
  bodyText : String
  attUrl : Option String
deriving DecidableEq

/-- Oracle for the remote interactions of one `/api/apply` request.
`.error e` means the corresponding `await` rejected with `e`. -/
structure ApplyWorld where
  /-- List-fields fetch + JSON parse consumed by `warmDropdowns`. -/
  fieldsFetch : Except String (List FieldDef)
  /-- Task-creation fetch + `create.json()`: `(create.ok, created)`. -/
  createResp : Except String (Bool × CreatedTask)
  /-- Attachment upload fetch (its JSON parse never throws: `.catch(() => ({}))`). -/
  uploadResp : Except String UploadResp
  /-- The `setUrl` field-update fetch (status only; response text is logged). -/
  setUrlResp : Except String Nat

/-- Responses of the `/api/apply` handler (all served with HTTP 200). -/
inductive ApplyResponse where
  /-- `{status:'validation_error', field, message}`. -/
  | validationError (field message : String)
  /-- `{status:'clickup_create_failed', ..., debug.sent_custom_fields}`. -/
  | createFailed (sentFieldIds : List String)
  /-- `{status:'ok', taskId, customTaskId, taskUrl, upload}`. -/
  | okResp (taskId : Option String) (customTaskId : Option String)
      (taskUrl : Option String) (upload : UploadMsg)
  /-- `{status:'server_error', detail}` from the outer catch. -/
  | serverError (detail : String)
deriving DecidableEq

/-- The video-upload block of the apply handler (executed when the created
task id and the file are truthy): returns the `uploadMsg` and the remote
calls issued by the block.  A throw anywhere inside — the upload fetch or the
`setUrl` fetch — is caught and recorded as `exception`. -/
def uploadPhase (cf : CF) (w : ApplyWorld) (tid : String) :
    UploadMsg × List RemoteCall :=
  match w.uploadResp with
  | .error e => (.exception e, [.uploadAttachment tid])
  | .ok u =>
    if !u.ok then (.failed u.status u.bodyText, [.uploadAttachment tid])
    else
      match u.attUrl with
      | some url =>
        if url ≠ "" ∧ cf.dcaVideoUrl ≠ "" then
          match w.setUrlResp with
          | .error e => (.exception e, [.uploadAttachment tid, .setField tid cf.dcaVideoUrl url])
          | .ok _ => (.okMsg, [.uploadAttachment tid, .setField tid cf.dcaVideoUrl url])
        else (.okMsg, [.uploadAttachment tid])
      | none => (.okMsg, [.uploadAttachment tid])

/-- The `/api/apply` handler (`app.post('/api/apply')` in `server.js`):
returns the response and the full trace of remote task-tracking API calls.
`nowIso` stands for `new Date().toISOString()`. -/
def applyHandler (cf : CF) (listId nowIso : String) (w : ApplyWorld)
    (req : ApplyRequest) : ApplyResponse × List RemoteCall :=
  -- await warmDropdowns(): one list-fields fetch, errors swallowed
  let cache := warmDropdowns [] w.fieldsFetch
  let calls0 := [RemoteCall.listFields listId]
  let p := normalizePayload req.body
  -- === Require a video upload ===
  if !fileTruthy req.file then
    (.validationError "videoFile" "Please upload a short intro video (required).", calls0)
  else
    let custom_fields := buildCustomFields cf cache p
    let body : TaskBody :=
      { name := if p.fullName ≠ "" then p.fullName else "Application " ++ nowIso
        description := buildTaskDescription p
        custom_fields := custom_fields }
    let calls1 := calls0 ++ [RemoteCall.createTask listId body]
    match w.createResp with
    | .error e => (.serverError e, calls1)
    | .ok (createOk, created) =>
      if !createOk then (.createFailed (custom_fields.map FieldAssignment.id), calls1)
      else
        match created.id with
        | none => (.okResp none (jsOrNull created.custom_id) created.url .okMsg, calls1)
        | some tid =>
          if tid ≠ "" ∧ fileTruthy req.file then
            let up := uploadPhase cf w tid
            (.okResp (some tid) (jsOrNull created.custom_id) created.url up.1,
              calls1 ++ up.2)
          else (.okResp (some tid) (jsOrNull created.custom_id) created.url .okMsg, calls1)

/-! ## `/api/guarantee-sign` flow -/

/-- Body of a guarantee-sign request (`""` ≡ absent, as elsewhere). -/
structure SignRequest where
  fullName : String
  signedAt : String
  termsText : String
  signaturePng : String
deriving DecidableEq

/-- `split(',')` of JS on a char list (separator is the single comma). -/
def splitCommaAux : List Char → List Char → List (List Char)
  | [], acc => [acc.reverse]
  | c :: rest, acc =>
    if c = ',' then acc.reverse :: splitCommaAux rest []
    else splitCommaAux rest (c :: acc)

/-- `(signaturePng || '').split(',')[1]` followed by the `if (!b64)` falsiness
guard: the base64 payload after the first comma, or `none`. -/
def sigB64 (signaturePng : String) : Option String :=
  match (splitCommaAux signaturePng.data [])[1]? with
  | some l => if l.isEmpty then none else some (⟨l⟩ : String)
  | none => none

/-- Oracle for one guarantee-sign request.  Each `.error` marks the
corresponding `await` rejecting, which the handler does not catch locally. -/
structure SignWorld where
  /-- `resolveTaskId({taskId, customTaskId})`: throw, or the resolved id
  (`none` = falsy, i.e. `task_not_found`). -/
  resolveResult : Except String (Option String)
  /-- The PDF render promise (`stream.on('finish'| 'error')`). -/
  renderResult : Except String Unit
  /-- `fs.readFileSync(pdfPath)`. -/
  readPdfResult : Except String Unit
  /-- The attachment-upload fetch: `(up.ok, up.status)`. -/
  uploadResult : Except String (Bool × Nat)

/-- Responses of the guarantee-sign handler. -/
inductive SignResponse where
  /-- HTTP 400 `{ok:false, error}`. -/
  | badRequest (error : String)
  /-- HTTP 200 `{ok:true, attachment}` (sent whether or not the upload's
  HTTP status was a success). -/
  | success (uploadOk : Bool)
  /-- HTTP 500 `{ok:false, error:'server_error'}` from the outer catch. -/
  | serverErr
deriving DecidableEq

/-- Observable outcome of one guarantee-sign request: the response, whether
the temporary directory (with `sig.png` and the PDF) was created, and
whether the cleanup block (`fs.unlinkSync`/`fs.rmdirSync`) ran before the
handler returned. -/
structure SignOutcome where
  resp : SignResponse
  tmpCreated : Bool
  tmpCleaned : Bool
deriving DecidableEq

/-- The `/api/guarantee-sign` handler (`app.post('/api/guarantee-sign')`).
The temp dir is created (`fs.mkdtempSync`) only after the task and signature
checks pass; the cleanup block sits between the upload response handling and
the final `res.json`, with no `finally`, so a rejection of the render
promise, the PDF read, or the upload fetch jumps to the outer catch without
reaching it. -/
def guaranteeSignHandler (w : SignWorld) (req : SignRequest) : SignOutcome :=
  match w.resolveResult with
  | .error _ => ⟨.serverErr, false, false⟩
  | .ok none => ⟨.badRequest "task_not_found", false, false⟩
  | .ok (some _) =>
    match sigB64 req.signaturePng with
    | none => ⟨.badRequest "bad_signature", false, false⟩
    | some _ =>
      -- fs.mkdtempSync: temp dir exists from here on
      match w.renderResult with
      | .error _ => ⟨.serverErr, true, false⟩
      | .ok _ =>
        match w.readPdfResult with
        | .error _ => ⟨.serverErr, true, false⟩
        | .ok _ =>
          match w.uploadResult with
          | .error _ => ⟨.serverErr, true, false⟩
          | .ok (upOk, _) =>
            -- up.json().catch(() => ({})) cannot throw; cleanup block runs,
            -- each removal individually wrapped in try/catch; the optional
            -- CF_GUARANTEE_SIGNED update has `.catch(() => {})`.
            ⟨.success upOk, true, true⟩

/-! ## Document renderer (`RenderGuaranteePdf`) -/

/-- Abstract content item appended to the PDF document.  The PDFKit library
is a boundary collaborator: `doc.text`/`doc.addPage`/`doc.image` are modelled
as constructors of the document's content sequence. -/
inductive DocItem where
  | textItem (s : String)
  | imageItem
  | pageBreak
deriving DecidableEq

/-- JS `s || d` on strings. -/
def jsOr (s d : String) : String := if s = "" then d else s

/-- The document-building sequence inside the render promise of the
guarantee-sign handler.  `imagePlaceable` is false when `doc.image` throws on
the written signature bytes (unparseable image); the `try { doc.image(...) }
catch(_) {}` swallows the failure and the remaining items still render.
`nowIso`/`nowLocale`/`fmtLocale` stand for `new Date().toISOString()`,
`new Date().toLocaleString()` and `new Date(s).toLocaleString()`. -/
def renderGuaranteeDoc (fullName signedAt termsText : String)
    (nowIso nowLocale : String) (fmtLocale : String → String)
    (imagePlaceable : Bool) : List DocItem :=
  [DocItem.textItem "Dion Training — Career Accelerator Job Guarantee",
   DocItem.textItem ("Signed by: " ++ jsOr fullName "N/A"),
   DocItem.textItem ("Signed at: " ++ jsOr signedAt nowIso),
   DocItem.textItem (jsOr termsText ""),
   DocItem.pageBreak,
   DocItem.textItem "Signature"] ++
  (if imagePlaceable then [DocItem.imageItem] else []) ++
  [DocItem.textItem ("Name: " ++ jsOr fullName ""),
   DocItem.textItem ("Date: " ++ (if signedAt ≠ "" then fmtLocale signedAt else nowLocale))]

/-! ## Supporting lemmas -/

theorem beginsWith_iff (p : List Char) : ∀ l, beginsWith l p = true ↔ p <+: l := by
  induction p with
  | nil => intro l; simp [beginsWith, List.nil_prefix]
  | cons b bs ih =>
    intro l
    cases l with
    | nil =>
      constructor
      · intro h; simp [beginsWith] at h
      · intro h; exact absurd (List.prefix_nil.mp h) (by simp)
    | cons a as =>
      rw [List.cons_prefix_cons]
      simp only [beginsWith, Bool.and_eq_true, beq_iff_eq, ih as]
      constructor
      · rintro ⟨h1, h2⟩; exact ⟨h1.symm, h2⟩
      · rintro ⟨h1, h2⟩; exact ⟨h1.symm, h2⟩

theorem jsIncludesL_iff (hay needle : List Char) :
    jsIncludesL hay needle = true ↔ needle <:+: hay := by
  induction hay with
  | nil =>
    show beginsWith [] needle = true ↔ _
    rw [beginsWith_iff, List.infix_nil, List.prefix_nil]
  | cons a t ih =>
    show (beginsWith (a :: t) needle || jsIncludesL t needle) = true ↔ _
    rw [List.infix_cons_iff, Bool.or_eq_true, beginsWith_iff, ih]

theorem jsIncludes_iff (hay needle : String) :
    jsIncludes hay needle = true ↔ needle.data <:+: hay.data := by
  exact jsIncludesL_iff hay.data needle.data

/-- Monotonicity of substring containment: if `b` contains `a` and `v`
contains `b`, then `v` contains `a`. -/
theorem jsIncludes_mono {v a b : String} (hab : jsIncludes b a = true)
    (h : jsIncludes v b = true) : jsIncludes v a = true := by
  rw [jsIncludes_iff] at *
  exact hab.trans h

theorem lookup_filter_ne (m : OptionCache) (k f : String) (hfk : f ≠ k) :
    (m.filter (fun p => p.1 ≠ k)).lookup f = m.lookup f := by
  induction m with
  | nil => rfl
  | cons e t ih =>
    obtain ⟨a, b⟩ := e
    simp only [ne_eq, decide_not] at ih
    by_cases hak : a = k
    · subst hak
      have h2 : (f == a) = false := beq_eq_false_iff_ne.mpr hfk
      simp [List.filter_cons, List.lookup_cons, h2, ih]
    · simp only [List.filter_cons]
      rw [if_pos (by simp [hak])]
      by_cases hfa : f = a
      · subst hfa; simp [List.lookup_cons]
      · have h2 : (f == a) = false := beq_eq_false_iff_ne.mpr hfa
        simp [List.lookup_cons, h2, ih]

theorem lookup_mapSet (m : OptionCache) (k f : String) (v : List FieldOption) :
    (mapSet m k v).lookup f = if f = k then some v else m.lookup f := by
  by_cases hfk : f = k
  · subst hfk
    simp [mapSet, List.lookup_cons]
  · have h2 : (f == k) = false := beq_eq_false_iff_ne.mpr hfk
    have h3 := lookup_filter_ne m k f hfk
    simp only [ne_eq, decide_not] at h3
    simp [mapSet, List.lookup_cons, h2, h3, hfk]

theorem lookup_warmStep_isSome (m : OptionCache) (d : FieldDef) (g : String) :
    ((warmStep m d).lookup g).isSome =
      ((m.lookup g).isSome || (d.id == g && d.options.isSome)) := by
  cases hopt : d.options with
  | none => simp [warmStep, hopt]
  | some opts =>
    simp only [warmStep, hopt, lookup_mapSet]
    by_cases hg : g = d.id
    · subst hg; simp
    · have h2 : (d.id == g) = false := beq_eq_false_iff_ne.mpr (Ne.symm hg)
      simp [hg, h2]

theorem lookup_foldl_warm (fields : List FieldDef) (m : OptionCache) (g : String) :
    ((fields.foldl warmStep m).lookup g).isSome =
      ((m.lookup g).isSome || fields.any (fun d => d.id == g && d.options.isSome)) := by
  induction fields generalizing m with
  | nil => simp
  | cons d t ih =>
    simp [List.foldl_cons, ih, lookup_warmStep_isSome, List.any_cons, Bool.or_assoc]


/-! ## Claim C8: option-cache refresh invariant -/

/-- C8: the option cache is cleared at the start of every refresh (the result
never depends on the previous contents); a failed fetch leaves the cache
empty with no error propagating (`warmDropdowns` is total and returns `[]`
on `.error`); and after a successful refresh the cache holds an entry for a
field exactly when the fetched field list contains a definition with that id
exposing an enumerated option set. -/
theorem warmDropdowns_invariant :
    (∀ (old : OptionCache) (r : Except String (List FieldDef)),
      warmDropdowns old r = warmDropdowns [] r) ∧
    (∀ (old : OptionCache) (e : String), warmDropdowns old (Except.error e) = []) ∧
    (∀ (old : OptionCache) (fields : List FieldDef) (g : String),
      ((warmDropdowns old (Except.ok fields)).lookup g).isSome =
        fields.any (fun d => d.id == g && d.options.isSome)) := by
  refine ⟨fun _ _ => rfl, fun _ _ => rfl, fun old fields g => ?_⟩
  show ((fields.foldl warmStep []).lookup g).isSome = _
  rw [lookup_foldl_warm]
  simp

/-- Witness for C8 at concrete refreshes: a failed fetch empties a non-empty
cache, and a successful fetch caches a field exposing an (empty) option
array. -/
theorem warmDropdowns_invariant_witness :
    warmDropdowns [("x", [])] (Except.error "boom") = [] ∧
    ((warmDropdowns [("x", [])] (Except.ok [⟨"g", some []⟩])).lookup "g").isSome
      = true :=
  ⟨warmDropdowns_invariant.2.1 [("x", [])] "boom", by
    rw [warmDropdowns_invariant.2.2 [("x", [])] [⟨"g", some []⟩] "g"]; decide⟩

/-! ## Claim C1: `pushDropdownOrText` trichotomy -/

/-- A successful resolution implies the field has a cache entry (the resolver
returns `null` outright on an empty option list, and a cache miss defaults to
the empty list). -/
theorem optionIdFor_some_lookup (weId : String) (cache : OptionCache)
    (fieldId raw x : String) (h : optionIdFor weId cache fieldId raw = some x) :
    (cache.lookup fieldId).isSome = true := by
  cases hl : cache.lookup fieldId with
  | some opts => rfl
  | none =>
    simp only [optionIdFor] at h
    by_cases hg : (fieldId = "" || raw = "") = true
    · rw [if_pos hg] at h; cases h
    · rw [if_neg hg, hl] at h
      simp [optionIdForCore] at h

/-- C1 (amended): for every non-empty field id and non-empty raw value,
`pushDropdownOrText` appends the resolved option id when `Resolve` succeeds
with a truthy (non-empty) id; appends nothing when the field has a cache
entry but `Resolve` returns null, and likewise when the resolved id is the
JS-falsy empty string; and appends the raw value unchanged when the field
has no cache entry. -/
theorem pushDropdownOrText_cases (weId : String) (cache : OptionCache)
    (fields : List FieldAssignment) (fieldId raw : String)
    (h1 : fieldId ≠ "") (h2 : raw ≠ "") :
    (∀ oid, optionIdFor weId cache fieldId raw = some oid → oid ≠ "" →
      pushDropdownOrText weId cache fields fieldId raw = fields ++ [⟨fieldId, oid⟩]) ∧
    ((cache.lookup fieldId).isSome = true →
      optionIdFor weId cache fieldId raw = none →
      pushDropdownOrText weId cache fields fieldId raw = fields) ∧
    (optionIdFor weId cache fieldId raw = some "" →
      pushDropdownOrText weId cache fields fieldId raw = fields) ∧
    (cache.lookup fieldId = none →
      pushDropdownOrText weId cache fields fieldId raw = fields ++ [⟨fieldId, raw⟩]) := by
  refine ⟨fun oid hoid hne => ?_, fun hsome hnone => ?_, fun hempty => ?_, fun hnone => ?_⟩
  · simp [pushDropdownOrText, h1, h2, hoid, strTruthy, hne]
  · simp [pushDropdownOrText, h1, h2, hnone, hsome, strTruthy]
  · have hasOpt : (cache.lookup fieldId).isSome = true :=
      optionIdFor_some_lookup weId cache fieldId raw "" hempty
    simp [pushDropdownOrText, h1, h2, hempty, hasOpt, strTruthy]
  · have hres : optionIdFor weId cache fieldId raw = none := by
      simp [optionIdFor, h1, h2, hnone, optionIdForCore]
    simp [pushDropdownOrText, h1, h2, hres, hnone, strTruthy]

/-- Witness for C1 at concrete inputs: a field with no cache entry and a
non-empty raw value gets the raw text appended, and a cached option whose id
is the empty string (JS-falsy) is skipped rather than appended. -/
theorem pushDropdownOrText_cases_witness :
    ("f" ≠ "" ∧ "v" ≠ "") ∧
    pushDropdownOrText "w" [] [] "f" "v" = [⟨"f", "v"⟩] ∧
    optionIdFor "w" [("f", [⟨"", "v"⟩])] "f" "v" = some "" ∧
    pushDropdownOrText "w" [("f", [⟨"", "v"⟩])] [] "f" "v" = [] :=
  ⟨⟨by decide, by decide⟩,
    (pushDropdownOrText_cases "w" [] [] "f" "v" (by decide) (by decide)).2.2.2 rfl,
    by decide,
    (pushDropdownOrText_cases "w" [("f", [⟨"", "v"⟩])] [] "f" "v" (by decide)
      (by decide)).2.2.1 (by decide)⟩

/-- C1 counterexample to the claim as stated ("for every field id and raw
value"): with the empty raw value and a field that has no cached options,
the JS falsiness guard (`if (!fieldId || !raw) return`) appends nothing,
not the raw value. -/
theorem pushDropdownOrText_empty_raw_counterexample :
    ([] : OptionCache).lookup "f" = none ∧
    pushDropdownOrText "w" [] [] "f" "" = [] ∧
    ([] : List FieldAssignment) ≠ [⟨"f", ""⟩] := by
  refine ⟨rfl, rfl, by decide⟩

/-! ## Claim C3: yes-shorthand resolution -/

/-- C3: for every cached option set containing an option literally named
"yes" (case-insensitively, after normalization), `Resolve` applied to the
input `"yes"` returns the id of such an option, whatever the other option
names are. -/
theorem resolve_yes_shorthand (weId fieldId : String) (cache : OptionCache)
    (opts : List FieldOption)
    (hf : fieldId ≠ "") (hl : cache.lookup fieldId = some opts)
    (hyes : ∃ o ∈ opts, norm o.name = "yes") :
    ∃ o ∈ opts, norm o.name = "yes" ∧
      optionIdFor weId cache fieldId "yes" = some o.id := by
  have hfind : (opts.find? (fun o => norm o.name == "yes")).isSome = true := by
    rw [List.find?_isSome]
    obtain ⟨o, ho, hno⟩ := hyes
    exact ⟨o, ho, by simp [hno]⟩
  obtain ⟨o', hfind'⟩ := Option.isSome_iff_exists.mp hfind
  have ho'mem : o' ∈ opts := List.mem_of_find?_eq_some hfind'
  have ho'yes : norm o'.name = "yes" := by
    have h := List.find?_some hfind'
    simpa using h
  refine ⟨o', ho'mem, ho'yes, ?_⟩
  have hisEmpty : opts.isEmpty = false := by
    cases opts with
    | nil => simp at ho'mem
    | cons a t => rfl
  have hexact : exactStep "yes" opts = some o'.id := by
    simp [exactStep, hfind']
  have hcore : optionIdForCore weId fieldId "yes" opts = some o'.id := by
    simp [optionIdForCore, hisEmpty, hexact]
  have hnorm : norm "yes" = "yes" := by decide
  simp [optionIdFor, hf, hl, hnorm, hcore]

/-- Witness for C3 at a concrete option set. -/
theorem resolve_yes_shorthand_witness :
    ∃ o ∈ [(⟨"id1", "Yes"⟩ : FieldOption), ⟨"id2", "No"⟩], norm o.name = "yes" ∧
      optionIdFor "w" [("f", [⟨"id1", "Yes"⟩, ⟨"id2", "No"⟩])] "f" "yes" = some o.id :=
  resolve_yes_shorthand "w" "f" [("f", [⟨"id1", "Yes"⟩, ⟨"id2", "No"⟩])]
    [⟨"id1", "Yes"⟩, ⟨"id2", "No"⟩] (by decide) (by decide) (by decide)

/-! ## Claim C7: normalization-insensitivity of `Resolve` -/

/-- Modelled from the spec: the option names of the work-eligibility dropdown
are remote data (fetched from the task-tracking API's list-fields endpoint),
absent from the repository.  Spec §4.2 (heuristic 5) and the configuration
comment describe a three-option dropdown whose names carry the
US-citizen/permanent-resident, Canadian and not-eligible keywords. -/
def workEligibilityOptions : List FieldOption :=
  [⟨"we-us", "US Citizen or Permanent Resident"⟩,
   ⟨"we-ca", "Canadian Citizen or Permanent Resident"⟩,
   ⟨"we-none", "None of the above / Not eligible"⟩]

/-- The hard-coded default of `CF.WORK_ELIGIBILITY` in `server.js`. -/
def workEligibilityFieldId : String := "aec8f523-e21d-4cd7-a359-d52f712009cb"

def workEligibilityCache : OptionCache :=
  [(workEligibilityFieldId, workEligibilityOptions)]

/-- C7 (amended): two non-empty raw inputs with the same normalization
resolve identically (the resolver reads the raw value only through `norm`),
and on the modelled work-eligibility option set both "U.S. Citizen" and
"us citizen" resolve to the US option's id. -/
theorem resolve_normalization_insensitive (weId fieldId : String)
    (cache : OptionCache) (raw1 raw2 : String)
    (h1 : raw1 ≠ "") (h2 : raw2 ≠ "") (heq : norm raw1 = norm raw2) :
    optionIdFor weId cache fieldId raw1 = optionIdFor weId cache fieldId raw2 ∧
    optionIdFor workEligibilityFieldId workEligibilityCache workEligibilityFieldId
      "U.S. Citizen" = some "we-us" ∧
    optionIdFor workEligibilityFieldId workEligibilityCache workEligibilityFieldId
      "us citizen" = some "we-us" := by
  refine ⟨?_, by decide, by decide⟩
  by_cases hf : fieldId = ""
  · simp [optionIdFor, hf]
  · simp [optionIdFor, hf, h1, h2, heq]

/-- Witness for C7: two concrete raws with equal normalization. -/
theorem resolve_normalization_insensitive_witness :
    ("A-B" ≠ "" ∧ "a b" ≠ "" ∧ norm "A-B" = norm "a b") ∧
    optionIdFor "w" [("f", [⟨"o1", "a b"⟩])] "f" "A-B" =
      optionIdFor "w" [("f", [⟨"o1", "a b"⟩])] "f" "a b" :=
  ⟨⟨by decide, by decide, by decide⟩,
    (resolve_normalization_insensitive "w" "f" [("f", [⟨"o1", "a b"⟩])] "A-B" "a b"
      (by decide) (by decide) (by decide)).1⟩

/-- C7 counterexample to the claim as stated ("two raw inputs equal after
normalization resolve to the same result"): the empty raw input and "." have
the same normalization, but the falsiness guard sends the empty input to
null while "." matches the first cached option (its normalization is the
empty string, and every option name contains the empty string). -/
theorem resolve_empty_raw_counterexample :
    norm "" = norm "." ∧
    optionIdFor "w" [("f", [⟨"o1", "x"⟩])] "f" "" = none ∧
    optionIdFor "w" [("f", [⟨"o1", "x"⟩])] "f" "." = some "o1" := by
  refine ⟨by decide, rfl, by decide⟩

/-! ## Claim C6: cohort endpoint resolution -/

/-- C6: the cohort resolution maps "DTCA-2502 extra text" to the October
option slot, and "unknown" resolves to no option, so the endpoint answers
with the 400 unknown-cohort client error (given the cohort field is
configured and the request carries the cohort value). -/
theorem cohort_endpoint_resolution (octId janId : Option String)
    (cfCohort : String) (useCustom : Bool) (w : Except String Bool)
    (req : CohortRequest)
    (hcfg : cfCohort ≠ "") (hreq : req.cohort = some "unknown") :
    resolveCohortOptionId octId janId "DTCA-2502 extra text" = octId ∧
    cohortHandler cfCohort octId janId useCustom w req =
      .clientError
        "Unknown cohort value; expected \"october\" or \"january\" (or DTCA-2502/DTCA-2601 label)." := by
  constructor
  · show resolveCohortCore octId janId (cohortNorm "DTCA-2502 extra text") = octId
    rw [show cohortNorm "DTCA-2502 extra text" = "dtca-2502 extra text" from by decide]
    unfold resolveCohortCore
    rw [if_neg (by decide), if_neg (by decide), if_pos (by decide)]
  · have hres : resolveCohortOptionId octId janId "unknown" = none := by
      show resolveCohortCore octId janId (cohortNorm "unknown") = none
      rw [show cohortNorm "unknown" = "unknown" from by decide]
      unfold resolveCohortCore
      rw [if_neg (by decide), if_neg (by decide), if_neg (by decide), if_neg (by decide)]
    simp [cohortHandler, hreq, hcfg, strTruthy, hres]

/-- Witness for C6 at a concrete configuration and request. -/
theorem cohort_endpoint_resolution_witness :
    resolveCohortOptionId (some "o") (some "j") "DTCA-2502 extra text" = some "o" ∧
    cohortHandler "cf1" (some "o") (some "j") false (Except.ok true)
      ⟨some "t", none, some "unknown"⟩ =
      .clientError
        "Unknown cohort value; expected \"october\" or \"january\" (or DTCA-2502/DTCA-2601 label)." :=
  cohort_endpoint_resolution (some "o") (some "j") "cf1" false (Except.ok true)
    ⟨some "t", none, some "unknown"⟩ (by decide) rfl

/-! ## Claim C10: substring cohort matching -/

/-- C10 (amended): any input whose trimmed lowercased form contains "oct"
resolves to the October slot; an input containing "jan" resolves to the
January slot only when it contains neither "oct" nor "dtca-2502" (the
October branch is checked first); and, with both option ids configured, the
resolution is null exactly when the input contains none of the six tokens. -/
theorem cohort_substring_resolution (octId janId : Option String) (input : String) :
    (jsIncludes (cohortNorm input) "oct" = true →
      resolveCohortOptionId octId janId input = octId) ∧
    (jsIncludes (cohortNorm input) "jan" = true →
      jsIncludes (cohortNorm input) "oct" = false →
      jsIncludes (cohortNorm input) "dtca-2502" = false →
      resolveCohortOptionId octId janId input = janId) ∧
    (octId.isSome = true → janId.isSome = true →
      (resolveCohortOptionId octId janId input = none ↔
        (jsIncludes (cohortNorm input) "october" = false ∧
         jsIncludes (cohortNorm input) "january" = false ∧
         jsIncludes (cohortNorm input) "dtca-2502" = false ∧
         jsIncludes (cohortNorm input) "oct" = false ∧
         jsIncludes (cohortNorm input) "dtca-2601" = false ∧
         jsIncludes (cohortNorm input) "jan" = false))) := by
  set v := cohortNorm input with hv
  have hshow : resolveCohortOptionId octId janId input = resolveCohortCore octId janId v := rfl
  refine ⟨fun hoct => ?_, fun hjan hoct hdtca => ?_, fun ho hj => ?_⟩
  · rw [hshow]
    unfold resolveCohortCore
    by_cases hq : v = "october"
    · rw [if_pos hq]
    · rw [if_neg hq]
      by_cases hq2 : v = "january"
      · rw [hq2] at hoct
        exact absurd hoct (by decide)
      · rw [if_neg hq2, if_pos (by simp [hoct])]
  · rw [hshow]
    unfold resolveCohortCore
    by_cases hq : v = "october"
    · rw [hq] at hoct
      exact absurd hoct (by decide)
    · rw [if_neg hq]
      by_cases hq2 : v = "january"
      · rw [if_pos hq2]
      · rw [if_neg hq2, if_neg (by simp [hoct, hdtca]), if_pos (by simp [hjan])]
  · obtain ⟨o, rfl⟩ := Option.isSome_iff_exists.mp ho
    obtain ⟨j, rfl⟩ := Option.isSome_iff_exists.mp hj
    rw [hshow]
    unfold resolveCohortCore
    constructor
    · intro hnone
      by_cases hq : v = "october"
      · rw [if_pos hq] at hnone; cases hnone
      · rw [if_neg hq] at hnone
        by_cases hq2 : v = "january"
        · rw [if_pos hq2] at hnone; cases hnone
        · rw [if_neg hq2] at hnone
          by_cases hc3 : (jsIncludes v "dtca-2502" || jsIncludes v "oct") = true
          · rw [if_pos hc3] at hnone; cases hnone
          · rw [if_neg hc3] at hnone
            by_cases hc4 : (jsIncludes v "dtca-2601" || jsIncludes v "jan") = true
            · rw [if_pos hc4] at hnone; cases hnone
            · simp only [Bool.or_eq_true, not_or, Bool.not_eq_true] at hc3 hc4
              obtain ⟨hd2, hoct⟩ := hc3
              obtain ⟨hd6, hjan⟩ := hc4
              refine ⟨?_, ?_, hd2, hoct, hd6, hjan⟩
              · by_contra hcon
                simp only [Bool.not_eq_false] at hcon
                have : jsIncludes v "oct" = true :=
                  jsIncludes_mono (by decide) hcon
                rw [this] at hoct; cases hoct
              · by_contra hcon
                simp only [Bool.not_eq_false] at hcon
                have : jsIncludes v "jan" = true :=
                  jsIncludes_mono (by decide) hcon
                rw [this] at hjan; cases hjan
    · rintro ⟨_, _, hd2, hoct, hd6, hjan⟩
      have hq : v ≠ "october" := by
        intro heq; rw [heq] at hoct; exact absurd hoct (by decide)
      have hq2 : v ≠ "january" := by
        intro heq; rw [heq] at hjan; exact absurd hjan (by decide)
      rw [if_neg hq, if_neg hq2, if_neg (by simp [hd2, hoct]),
        if_neg (by simp [hd6, hjan])]

/-- Witness for C10: a concrete input containing "oct" (with surrounding
whitespace and upper case) resolves to the October slot. -/
theorem cohort_substring_resolution_witness :
    jsIncludes (cohortNorm " OCT ") "oct" = true ∧
    resolveCohortOptionId (some "o") (some "j") " OCT " = some "o" :=
  ⟨by decide, (cohort_substring_resolution (some "o") (some "j") " OCT ").1 (by decide)⟩

/-- C10 counterexample to the claim as stated ("every input containing 'jan'
resolves to the January option id"): "jan oct" contains "jan" but resolves
to the October option, because the October substring branch is tested
first. -/
theorem cohort_jan_oct_counterexample :
    jsIncludes (cohortNorm "jan oct") "jan" = true ∧
    resolveCohortOptionId (some "octOpt") (some "janOpt") "jan oct" = some "octOpt" ∧
    (some "octOpt" : Option String) ≠ some "janOpt" := by
  refine ⟨by decide, by decide, by decide⟩

/-! ## Claims C2 and C5: the `/api/apply` flow -/

/-- A payload with every field absent. -/
def emptyPayload : Payload :=
  ⟨"", "", "", "", "", "", "", "", "", "", "", "", "", "", "", "", "", "", ""⟩

/-- A configuration with only the defaulted work-eligibility id set. -/
def cfEmpty : CF := ⟨"", "", "", "", "", "", "we", "", "", "", "", "", "", "", ""⟩

/-- An oracle whose remote calls all succeed. -/
def trivialWorld : ApplyWorld :=
  ⟨Except.ok [], Except.ok (true, ⟨some "t1", none, none⟩),
    Except.ok ⟨true, 200, "", none⟩, Except.ok 200⟩

/-- C2 (amended): a creation request without a (non-empty) video file is
answered with the validation error naming `videoFile`, and the only remote
call made while handling it is the option-cache warm fetch — in particular
no task creation, attachment upload or field update happens. -/
theorem apply_missing_video_validation (cf : CF) (listId nowIso : String)
    (w : ApplyWorld) (req : ApplyRequest) (h : fileTruthy req.file = false) :
    (applyHandler cf listId nowIso w req).1 =
      .validationError "videoFile" "Please upload a short intro video (required)." ∧
    (applyHandler cf listId nowIso w req).2 = [RemoteCall.listFields listId] := by
  constructor <;> simp [applyHandler, h]

/-- Witness for C2 at a concrete request with no file. -/
theorem apply_missing_video_validation_witness :
    fileTruthy (none : Option VideoFile) = false ∧
    (applyHandler cfEmpty "L" "now" trivialWorld ⟨none, emptyPayload⟩).1 =
      .validationError "videoFile" "Please upload a short intro video (required)." :=
  ⟨rfl, (apply_missing_video_validation cfEmpty "L" "now" trivialWorld
    ⟨none, emptyPayload⟩ rfl).1⟩

/-- C2 counterexample to the claim as stated ("no call to the remote
task-tracking API is made while handling that request"): the handler begins
with `await warmDropdowns()`, which issues the list-fields fetch to the
task-tracking API before the video check, so the call trace of a no-video
request is not empty. -/
theorem apply_missing_video_counterexample :
    (applyHandler cfEmpty "L" "now" trivialWorld ⟨none, emptyPayload⟩).1 =
      .validationError "videoFile" "Please upload a short intro video (required)." ∧
    (applyHandler cfEmpty "L" "now" trivialWorld ⟨none, emptyPayload⟩).2 =
      [RemoteCall.listFields "L"] ∧
    (applyHandler cfEmpty "L" "now" trivialWorld ⟨none, emptyPayload⟩).2 ≠ [] := by
  refine ⟨rfl, rfl, by decide⟩

/-- The failure summary the upload block produces when the attachment upload
does not succeed (`none` when the upload succeeds). -/
def uploadFailureMsg (w : ApplyWorld) : Option UploadMsg :=
  match w.uploadResp with
  | .error e => some (.exception e)
  | .ok u => if !u.ok then some (.failed u.status u.bodyText) else none

/-- C5: when the remote task creation succeeds (with a truthy created id) and
the attachment upload fails — non-success HTTP status or a thrown exception —
the handler still returns the `status:'ok'` response carrying the created
task id, with the upload failure detail embedded, and that detail is not the
plain `'ok'` marker. -/
theorem apply_upload_failure_preserves_success
    (cf : CF) (listId nowIso : String) (w : ApplyWorld) (req : ApplyRequest)
    (f : VideoFile) (created : CreatedTask) (tid : String) (msg : UploadMsg)
    (hfile : req.file = some f) (hlen : f.bufferLen ≠ 0)
    (hcr : w.createResp = Except.ok (true, created))
    (hid : created.id = some tid) (htid : tid ≠ "")
    (hfail : uploadFailureMsg w = some msg) :
    (applyHandler cf listId nowIso w req).1 =
      .okResp (some tid) (jsOrNull created.custom_id) created.url msg ∧
    msg ≠ .okMsg := by
  have hft : fileTruthy req.file = true := by
    simp [fileTruthy, hfile, hlen]
  have hup : uploadPhase cf w tid = (msg, (uploadPhase cf w tid).2) ∧ msg ≠ .okMsg := by
    cases hw : w.uploadResp with
    | error e =>
      rw [uploadFailureMsg, hw] at hfail
      simp only [Option.some.injEq] at hfail
      subst hfail
      exact ⟨by simp [uploadPhase, hw], by simp⟩
    | ok u =>
      rw [uploadFailureMsg, hw] at hfail
      by_cases hok : u.ok
      · simp [hok] at hfail
      · simp only [hok, Bool.not_false, if_pos, Option.some.injEq] at hfail
        subst hfail
        have hokf : u.ok = false := by simpa using hok
        exact ⟨by simp [uploadPhase, hw, hokf], by simp⟩
  refine ⟨?_, hup.2⟩
  simp only [applyHandler, hft, Bool.not_true, Bool.false_eq_true, if_false, hcr,
    Bool.not_false, if_true, hid, htid, ne_eq, not_false_eq_true, and_self, if_pos]
  rw [hup.1]

/-- Oracle for C5's witness: creation succeeds, upload answers HTTP 500. -/
def uploadFailWorld : ApplyWorld :=
  ⟨Except.ok [], Except.ok (true, ⟨some "t1", none, none⟩),
    Except.ok ⟨false, 500, "boom", none⟩, Except.ok 200⟩

/-- Witness for C5 at a concrete request and failing upload. -/
theorem apply_upload_failure_witness :
    (applyHandler cfEmpty "L" "now" uploadFailWorld
      ⟨some ⟨5, "v.mp4", "video/mp4"⟩, emptyPayload⟩).1 =
      .okResp (some "t1") none none (.failed 500 "boom") ∧
    (UploadMsg.failed 500 "boom") ≠ .okMsg :=
  apply_upload_failure_preserves_success cfEmpty "L" "now" uploadFailWorld
    ⟨some ⟨5, "v.mp4", "video/mp4"⟩, emptyPayload⟩ ⟨5, "v.mp4", "video/mp4"⟩
    ⟨some "t1", none, none⟩ "t1" (.failed 500 "boom") rfl (by decide) rfl rfl
    (by decide) rfl

/-! ## Claims C4 and C9: the guarantee-sign flow -/

/-- C4 (amended): on every guarantee-sign path on which the render promise,
the PDF read and the upload fetch all complete without throwing — including
upload responses with a non-success HTTP status — the temp directory and its
files are removed before the handler returns. -/
theorem guarantee_cleanup_nonthrow (w : SignWorld) (req : SignRequest)
    (tid b64 : String) (u : Bool × Nat)
    (hres : w.resolveResult = Except.ok (some tid))
    (hsig : sigB64 req.signaturePng = some b64)
    (hrender : w.renderResult = Except.ok ())
    (hread : w.readPdfResult = Except.ok ())
    (hup : w.uploadResult = Except.ok u) :
    (guaranteeSignHandler w req).tmpCreated = true ∧
    (guaranteeSignHandler w req).tmpCleaned = true ∧
    (guaranteeSignHandler w req).resp = .success u.1 := by
  obtain ⟨upOk, status⟩ := u
  refine ⟨?_, ?_, ?_⟩ <;>
    simp [guaranteeSignHandler, hres, hsig, hrender, hread, hup]

/-- A well-formed signature request. -/
def signReqGood : SignRequest :=
  ⟨"Jane", "2025-01-01", "terms", "data:image/png;base64,AAAA"⟩

/-- Witness for C4: cleanup runs even when the upload's HTTP status is a
failure (a non-throwing failure path). -/
theorem guarantee_cleanup_nonthrow_witness :
    (guaranteeSignHandler
      ⟨Except.ok (some "t"), Except.ok (), Except.ok (), Except.ok (false, 500)⟩
      signReqGood).tmpCreated = true ∧
    (guaranteeSignHandler
      ⟨Except.ok (some "t"), Except.ok (), Except.ok (), Except.ok (false, 500)⟩
      signReqGood).tmpCleaned = true ∧
    (guaranteeSignHandler
      ⟨Except.ok (some "t"), Except.ok (), Except.ok (), Except.ok (false, 500)⟩
      signReqGood).resp = .success false :=
  guarantee_cleanup_nonthrow
    ⟨Except.ok (some "t"), Except.ok (), Except.ok (), Except.ok (false, 500)⟩
    signReqGood "t" "AAAA" (false, 500) rfl (by decide) rfl rfl rfl

/-- C4 counterexample to the claim as stated ("on every exit path, including
paths where PDF rendering or the attachment upload fails with an
exception"): when the upload fetch throws, the handler jumps to the outer
catch, skipping the cleanup block, and the temp files created for rendering
are never removed. -/
theorem guarantee_cleanup_counterexample :
    (guaranteeSignHandler
      ⟨Except.ok (some "t"), Except.ok (), Except.ok (), Except.error "fetch failed"⟩
      signReqGood).tmpCreated = true ∧
    (guaranteeSignHandler
      ⟨Except.ok (some "t"), Except.ok (), Except.ok (), Except.error "fetch failed"⟩
      signReqGood).tmpCleaned = false := by
  refine ⟨by decide, by decide⟩

/-- C9: with an unparseable signature image (`doc.image` throws and the
`try/catch` swallows it), the renderer still completes the whole document:
the result is non-empty, has both pages and all eight text items — in
particular the terms text, the signer name and the date — and only the image
item is missing. -/
theorem render_unparseable_image_complete
    (fullName signedAt termsText nowIso nowLocale : String)
    (fmtLocale : String → String) :
    renderGuaranteeDoc fullName signedAt termsText nowIso nowLocale fmtLocale false ≠ [] ∧
    (renderGuaranteeDoc fullName signedAt termsText nowIso nowLocale fmtLocale false).length
      = 8 ∧
    DocItem.pageBreak ∈
      renderGuaranteeDoc fullName signedAt termsText nowIso nowLocale fmtLocale false ∧
    DocItem.textItem (jsOr termsText "") ∈
      renderGuaranteeDoc fullName signedAt termsText nowIso nowLocale fmtLocale false ∧
    DocItem.textItem ("Name: " ++ jsOr fullName "") ∈
      renderGuaranteeDoc fullName signedAt termsText nowIso nowLocale fmtLocale false ∧
    DocItem.textItem
        ("Date: " ++ (if signedAt ≠ "" then fmtLocale signedAt else nowLocale)) ∈
      renderGuaranteeDoc fullName signedAt termsText nowIso nowLocale fmtLocale false := by
  refine ⟨by simp [renderGuaranteeDoc], by simp [renderGuaranteeDoc], ?_, ?_, ?_, ?_⟩ <;>
    simp [renderGuaranteeDoc]

/-- Witness for C9 at a concrete request: the terms text is present in the
document rendered with an unparseable signature image. -/
theorem render_unparseable_image_witness :
    DocItem.textItem "terms" ∈
      renderGuaranteeDoc "Jane" "2025-01-01" "terms" "n1" "n2" (fun s => s) false := by
  have h := (render_unparseable_image_complete "Jane" "2025-01-01" "terms" "n1" "n2"
    (fun s => s)).2.2.2.1
  simpa [jsOr] using h

end DTCA
